import Mathlib

/-!
Shallow embedding of the credential store of sqlpipe
(src/internal/data/users.go) over an explicit key-value store model,
together with theorems settling the frozen claims about it.

The store is modelled as a key-sorted association list of keys to values.
Values are either plain text (markers, flags, digests, text-encoded
timestamps) or JSON documents, which are modelled as association lists of
typed fields: the only JSON documents the code ever reads or writes here
are flat objects whose fields are strings, booleans or byte arrays, so no
nesting or string escaping arises.
-/

namespace Sqlpipe

/-! ## Reducible string primitives

Strings here are ASCII, so Go's byte-wise comparisons and scans coincide
with character-wise ones; these helpers are written by structural
recursion over the character list so that concrete executions reduce. -/

/-- Lexicographic strict order on character lists (bytes.Compare < 0). -/
def lexLt : List Char → List Char → Bool
  | [], [] => false
  | [], _ :: _ => true
  | _ :: _, [] => false
  | a :: as, b :: bs => if a < b then true else if b < a then false else lexLt as bs

/-- Lexicographic strict order on strings. -/
def strLtB (a b : String) : Bool := lexLt a.data b.data

/-- strings.HasPrefix: the second string is a prefix of the first. -/
def strStartsWith (s p : String) : Bool := p.data.isPrefixOf s.data

/-- strings.Contains on character lists. -/
def containsSub : List Char → List Char → Bool
  | _, [] => true
  | [], _ :: _ => false
  | c :: rest, pat => if pat.isPrefixOf (c :: rest) then true else containsSub rest pat

/-- strings.Split on a one-character separator: always returns at least
one (possibly empty) segment. -/
def splitChar (sep : Char) : List Char → List (List Char)
  | [] => [[]]
  | c :: rest =>
    let r := splitChar sep rest
    if c = sep then [] :: r
    else
      match r with
      | [] => [[c]]
      | seg :: segs => (c :: seg) :: segs

/-- A JSON field value as used by the user and token records: a string,
a boolean, or a byte slice (which Go's encoding/json renders in base64). -/
inductive Jval where
  | jstr (s : String)
  | jbool (b : Bool)
  | jbytes (bs : String)
deriving DecidableEq, Repr

/-- A stored value: plain text bytes, or a flat JSON document given by its
field list. -/
inductive StoreVal where
  | text (s : String)
  | doc (fields : List (String × Jval))
deriving DecidableEq, Repr

/-- The etcd key space: an association list sorted by key, mirroring etcd's
key-ordered ranges. -/
abbrev Store := List (String × StoreVal)

/-- Exact-key read (an etcd Get without options). -/
def getVal (s : Store) (k : String) : Option StoreVal :=
  (s.find? (fun kv => kv.1 == k)).map (fun kv => kv.2)

/-- CreateRevision(k) > 0 in an etcd compare: the key exists. -/
def containsKey (s : Store) (k : String) : Bool :=
  (getVal s k).isSome

/-- Range read of every key starting with the given string (an etcd Get
with the prefix option); keys come back in store order. -/
def rangeGet (s : Store) (p : String) : Store :=
  s.filter (fun kv => strStartsWith kv.1 p)

/-- Delete of every key starting with the given string (an etcd Delete with
the prefix option). -/
def delRange (s : Store) (p : String) : Store :=
  s.filter (fun kv => !(strStartsWith kv.1 p))

/-- Write a key, keeping the store sorted by key as etcd does. -/
def putVal : Store → String → StoreVal → Store
  | [], k, v => [(k, v)]
  | (k0, v0) :: rest, k, v =>
    if k = k0 then (k, v) :: rest
    else if strLtB k k0 then (k, v) :: (k0, v0) :: rest
    else (k0, v0) :: putVal rest k v

/-- An etcd value compare "Value(k) > target" on text values (bytes.Compare
is lexicographic byte order, which on the ASCII text stored here coincides
with String order). A compare on an absent key fails; token-hash keys hold
text-encoded timestamps per the persisted layout, so a JSON document value
never participates in this compare and is conservatively mapped to false. -/
def valueGtText (s : Store) (k : String) (target : String) : Bool :=
  match getVal s k with
  | some (.text t) => lexLt target.data t.data
  | some (.doc _) => false
  | none => false

/-- The raw bytes of a stored value, as Go's string(kv.Value) sees them.
Only plain-text values are ever consulted through this function by the
operations below (the one call site compares key names that never match a
document-holding key), so the document case is irrelevant and rendered
as the empty string. -/
def storeValBytes : StoreVal → String
  | .text t => t
  | .doc _ => ""

/-- Error taxonomy of the data layer as the claims need it: record not
found, invalid credentials, duplicate username, and decoding failures
(malformed JSON payloads and strconv parse errors). -/
inductive DataErr where
  | notFound
  | invalidCredentials
  | duplicateUsername
  | decode
deriving DecidableEq, Repr

/-- Field lookup in a flat JSON document (Go reads each tagged field by
name; the documents written here never repeat a field). -/
def jfield (fields : List (String × Jval)) (k : String) : Option Jval :=
  (fields.find? (fun f => f.1 == k)).map (fun f => f.2)

/-- Read a string-typed JSON field: absent means the zero value "",
a value of another JSON type is an unmarshalling type error. -/
def jstrField (fields : List (String × Jval)) (k : String) : Except DataErr String :=
  match jfield fields k with
  | none => .ok ""
  | some (.jstr s) => .ok s
  | some _ => .error .decode

/-- Read a boolean-typed JSON field: absent means the zero value false. -/
def jboolField (fields : List (String × Jval)) (k : String) : Except DataErr Bool :=
  match jfield fields k with
  | none => .ok false
  | some (.jbool b) => .ok b
  | some _ => .error .decode

/-- Read a byte-slice-typed JSON field: absent means the zero value. -/
def jbytesField (fields : List (String × Jval)) (k : String) : Except DataErr String :=
  match jfield fields k with
  | none => .ok ""
  | some (.jbytes bs) => .ok bs
  | some _ => .error .decode

/-- Digits of a decimal numeral, most significant first. -/
def parseNatGo : List Char → Nat → Option Nat
  | [], acc => some acc
  | c :: rest, acc =>
    if c.isDigit then parseNatGo rest (acc * 10 + (c.toNat - 48)) else none

/-- Parse a nonempty all-digit string as a natural number. -/
def parseNatDigits : List Char → Option Nat
  | [] => none
  | cs => parseNatGo cs 0

def int64Max : Int := 9223372036854775807

def int64Min : Int := -9223372036854775808

/-- strconv.ParseInt(s, 10, 64): an optional sign followed by at least one
decimal digit, rejected outside the signed 64-bit range (Go returns
ErrRange there, which the callers propagate as an error). -/
def parseInt64 (s : String) : Except DataErr Int :=
  match s.toList with
  | [] => .error .decode
  | c :: rest =>
    let signDigits : Bool × List Char :=
      if c = '-' then (true, rest)
      else if c = '+' then (false, rest)
      else (false, c :: rest)
    match parseNatDigits signDigits.2 with
    | none => .error .decode
    | some n =>
      let v : Int := if signDigits.1 then -(n : Int) else (n : Int)
      if v < int64Min ∨ int64Max < v then .error .decode else .ok v

/-- strconv.ParseBool: the exact accepted spellings. -/
def parseBool (s : String) : Except DataErr Bool :=
  if s = "1" ∨ s = "t" ∨ s = "T" ∨ s = "true" ∨ s = "TRUE" ∨ s = "True" then .ok true
  else if s = "0" ∨ s = "f" ∨ s = "F" ∨ s = "false" ∨ s = "FALSE" ∨ s = "False" then .ok false
  else .error .decode

/-- fmt.Sprint of a Go bool. -/
def boolText (b : Bool) : String := if b then "true" else "false"

/-- strings.Contains: the empty pattern is contained in everything;
otherwise the pattern splits the string iff it occurs in it. -/
def strContains (s pat : String) : Bool :=
  containsSub s.data pat.data

/-- strings.TrimPrefix. -/
def trimPre (s p : String) : String :=
  if strStartsWith s p then s.drop p.length else s

/-! ## The user data model (src/internal/data/users.go) -/

/-- The User struct. Go json tags: Username is "username",
PlaintextPassword is "-" (never serialized), BcryptedPassword is "_"
(serialized under the field name "_"), AuthToken is "-" (never
serialized), Admin is "admin". Byte slices are carried as strings of
bytes. -/
structure User where
  Username : String
  PlaintextPassword : String
  BcryptedPassword : String
  AuthToken : String
  Admin : Bool
deriving DecidableEq, Repr

/-- The ScrubbedUser struct: json tags "username" and "admin". -/
structure ScrubbedUser where
  Username : String
  Admin : Bool
deriving DecidableEq, Repr

/-- User.Scrub. -/
def scrub (user : User) : ScrubbedUser :=
  { Username := user.Username, Admin := user.Admin }

/-- Modelled from the spec: the session token record (its Go type is
declared outside src/). Per the data model, a token's attribute is its
expiry as an absolute timestamp, text-encoded; GetUserCheckToken decodes
the record from JSON and then parses this field with strconv.ParseInt. -/
structure Token where
  ExpiryUnixTime : String
deriving DecidableEq, Repr

/-- json.Marshal of a User: the fields in struct order, honouring the
tags — PlaintextPassword and AuthToken are tagged "-" and omitted, the
bcrypt hash is emitted under the field name "_" (as base64 bytes),
Username under "username" and Admin under "admin". -/
def jsonEncodeUser (user : User) : List (String × Jval) :=
  [("username", .jstr user.Username),
   ("_", .jbytes user.BcryptedPassword),
   ("admin", .jbool user.Admin)]

/-- json.Unmarshal into a User: each tagged field is read by name with its
type (wrong JSON type is an error, absent leaves the zero value); the
"-" fields are never populated. A plain-text value is not a JSON object
(the text values written by this package are empty markers, booleans,
decimal timestamps and hex digests), so decoding it into a struct fails. -/
def unmarshalUser : StoreVal → Except DataErr User
  | .text _ => .error .decode
  | .doc fields =>
    match jstrField fields "username" with
    | .error e => .error e
    | .ok un =>
      match jbytesField fields "_" with
      | .error e => .error e
      | .ok bp =>
        match jboolField fields "admin" with
        | .error e => .error e
        | .ok ad =>
          .ok { Username := un, PlaintextPassword := "", BcryptedPassword := bp,
                AuthToken := "", Admin := ad }

/-- json.Unmarshal into a ScrubbedUser (tags "username" and "admin"). -/
def unmarshalScrubbed : StoreVal → Except DataErr ScrubbedUser
  | .text _ => .error .decode
  | .doc fields =>
    match jstrField fields "username" with
    | .error e => .error e
    | .ok un =>
      match jboolField fields "admin" with
      | .error e => .error e
      | .ok ad => .ok { Username := un, Admin := ad }

/-- json.Unmarshal into a Token. Modelled from the spec: the record's one
field is the text-encoded expiry, read here under the field name
"expiry"; an absent field leaves the zero value. -/
def unmarshalToken : StoreVal → Except DataErr Token
  | .text _ => .error .decode
  | .doc fields =>
    match jfield fields "expiry" with
    | none => .ok { ExpiryUnixTime := "" }
    | some (.jstr s) => .ok { ExpiryUnixTime := s }
    | some _ => .error .decode

/-! ## Key-path builder and hasher (globals and crypto, outside src/) -/

/-- The account key-space root, hardcoded in UserModel.GetAll. -/
def usersRoot : String := "sqlpipe/data/users"

/-- Modelled from the spec: the Key-Path Builder's account key
(globals.GetUserPath, outside src/). Per the spec every descendant key
shares the account key as a common prefix, and the Directory Lister
obtains the username as the single top-level segment after stripping the
account root, so the account key is the root followed directly by the
username. -/
def GetUserPath (username : String) : String := usersRoot ++ username

/-- Modelled from the spec: the admin-flag child key
(globals.GetUserAdminPath); its suffix name matches the "admin" case of
GetUserWithPassword. -/
def GetUserAdminPath (username : String) : String :=
  GetUserPath username ++ "/admin"

/-- Modelled from the spec: the password-hash child key
(globals.GetUserHashedPasswordPath); its suffix name matches the
"hashed_password" case of GetUserWithPassword. -/
def GetUserHashedPasswordPath (username : String) : String :=
  GetUserPath username ++ "/hashed_password"

/-- Modelled from the spec: the token child key
(globals.GetUserTokenPath) — accounts/{username}/tokens/{tokenHash}. -/
def GetUserTokenPath (username hashedToken : String) : String :=
  GetUserPath username ++ "/tokens/" ++ hashedToken

def hexDigit (n : Nat) : Char :=
  if n < 10 then Char.ofNat (48 + n) else Char.ofNat (55 + n)

def hex6 (n : Nat) : String :=
  String.mk [hexDigit (n / 1048576 % 16), hexDigit (n / 65536 % 16),
             hexDigit (n / 4096 % 16), hexDigit (n / 256 % 16),
             hexDigit (n / 16 % 16), hexDigit (n % 16)]

/-- Modelled from the spec: the Credential Hasher's fast hash
(fmt.Sprintf of crypto/sha256, library code outside src/) — a
deterministic one-way digest used purely as a lookup key. Only
determinism and key-safety are relied on by the code, so it is modelled
as a fixed-width hex rendering of the input's characters. -/
def sha256Hex (s : String) : String :=
  String.join (s.toList.map (fun c => hex6 c.toNat))

/-! ## Filters and metadata (data/filters.go, outside src/) -/

/-- Modelled from the spec: the pagination parameters — page number, page
size, and a sort key restricted to username ascending ("username") or
descending ("-username"). -/
structure Filters where
  Page : Int
  PageSize : Int
  SortKey : String
deriving DecidableEq, Repr

/-- Modelled from the spec: the requested sort key (the Go field is named
Sort, which is a reserved word here). -/
def sortColumn (f : Filters) : String := f.SortKey

/-- Modelled from the spec: the pagination offset of the requested page. -/
def filtersOffset (f : Filters) : Int := (f.Page - 1) * f.PageSize

/-- Modelled from the spec: the page-size limit. -/
def filtersLimit (f : Filters) : Int := f.PageSize

/-- Modelled from the spec: the total-match metadata, computed from the
true total match count, the page and the page size. -/
structure Metadata where
  totalRecords : Int
  page : Int
  pageSize : Int
deriving DecidableEq, Repr

def calculateMetadata (totalRecords page pageSize : Int) : Metadata :=
  { totalRecords := totalRecords, page := page, pageSize := pageSize }

/-- Insert one element into a list sorted by the given comparator. -/
def insertSorted (le : ScrubbedUser → ScrubbedUser → Bool) (x : ScrubbedUser) :
    List ScrubbedUser → List ScrubbedUser
  | [] => [x]
  | y :: ys => if le x y then x :: y :: ys else y :: insertSorted le x ys

/-- sort.Slice with the given strict less-than on usernames: modelled as an
insertion sort (the Go sort is unstable, but every comparator used sorts
by username and the relied-on results never depend on the order of
equal-username entries). -/
def sortUsers (le : ScrubbedUser → ScrubbedUser → Bool) (us : List ScrubbedUser) :
    List ScrubbedUser :=
  us.foldr (insertSorted le) []

/-! ## The operations of UserModel (src/internal/data/users.go) -/

/-- Outcome of InsertCheckToken: success with the scrubbed user and the
updated store, a returned error, or the fatal panic in the diagnose
branch. -/
inductive InsertOutcome where
  | ok (su : ScrubbedUser) (s2 : Store)
  | err (e : DataErr)
  | fatal (msg : String)
deriving DecidableEq, Repr

/-- UserModel.InsertCheckToken. The transaction's three conditions and its
Then/Else branches are evaluated atomically against the store; time.Now()
is read once for the transaction's value compare (nowTxn) and once in the
diagnose branch (nowChk). On success the Then branch writes the account
marker (empty text), the sha256 of the bcrypt hash, and the admin flag;
on failure the Else branch's two reads (the caller's token key and the
target account key) classify the cause, and the remaining case panics. -/
def insertCheckToken (newUser callingUser : User) (nowTxn nowChk : Int)
    (s : Store) : InsertOutcome :=
  let newUserPath := GetUserPath newUser.Username
  let newUserAdminPath := GetUserAdminPath newUser.Username
  let newUserHashedPasswordPath := GetUserHashedPasswordPath newUser.Username
  let fastHashedPassword := sha256Hex newUser.BcryptedPassword
  let hashedToken := sha256Hex callingUser.AuthToken
  let callingUserTokenPath := GetUserTokenPath callingUser.Username hashedToken
  let cond := containsKey s callingUserTokenPath
      && valueGtText s callingUserTokenPath (toString nowTxn)
      && !(containsKey s newUserPath)
  if cond then
    .ok (scrub newUser)
      (putVal (putVal (putVal s newUserPath (.text ""))
        newUserHashedPasswordPath (.text fastHashedPassword))
        newUserAdminPath (.text (boolText newUser.Admin)))
  else
    match getVal s callingUserTokenPath with
    | none => .err .invalidCredentials
    | some v =>
      match parseInt64 (storeValBytes v) with
      | .error e => .err e
      | .ok expiry =>
        if expiry < nowChk then .err .invalidCredentials
        else if containsKey s newUserPath then .err .duplicateUsername
        else .fatal "inserting user failed with an unknown error"

/-- UserModel.Insert (bootstrap creation): if the account key exists the
transaction fails with ErrDuplicateUsername, else it writes the account
marker (empty text), the sha256 of the bcrypt hash, and the admin flag. -/
def insert (newUser : User) (s : Store) : Except DataErr Store :=
  if containsKey s (GetUserPath newUser.Username) then .error .duplicateUsername
  else
    .ok (putVal (putVal (putVal s (GetUserPath newUser.Username) (.text ""))
      (GetUserHashedPasswordPath newUser.Username)
      (.text (sha256Hex newUser.BcryptedPassword)))
      (GetUserAdminPath newUser.Username) (.text (boolText newUser.Admin)))

/-- UserModel.Get: exact read of the account key; NotFound if absent, else
json.Unmarshal of its value into a User, then Scrub. -/
def get (username : String) (s : Store) : Except DataErr ScrubbedUser :=
  match getVal s (GetUserPath username) with
  | none => .error .notFound
  | some v =>
    match unmarshalUser v with
    | .error e => .error e
    | .ok user => .ok (scrub user)

/-- One step of GetUserWithPassword's loop over the range result: the
switch compares the full key bytes with "admin" and "hashed_password". -/
def guwpStep (acc : User) (kv : String × StoreVal) : Except DataErr User :=
  if kv.1 == "admin" then
    match parseBool (storeValBytes kv.2) with
    | .error e => .error e
    | .ok b => .ok { acc with Admin := b }
  else if kv.1 == "hashed_password" then
    .ok { acc with BcryptedPassword := storeValBytes kv.2 }
  else
    .ok acc

/-- UserModel.GetUserWithPassword: prefix scan of the account subtree;
NotFound when it returns no keys, else the username is set and the loop
dispatches on each returned key. -/
def getUserWithPassword (username : String) (s : Store) : Except DataErr User :=
  let kvs := rangeGet s (GetUserPath username)
  if kvs.isEmpty then .error .notFound
  else
    kvs.foldlM guwpStep
      { Username := username, PlaintextPassword := "", BcryptedPassword := "",
        AuthToken := "", Admin := false }

/-- UserModel.GetUserCheckToken: the transaction requires the account key
and the key userDataPath ++ "/tokens" to exist (note the supplied
inputToken is never used); on success both are read in the transaction,
the token record is decoded, its expiry parsed, expiry < now is rejected
as NotFound, and the account value is decoded as the scrubbed user. -/
def getUserCheckToken (username inputToken : String) (now : Int)
    (s : Store) : Except DataErr ScrubbedUser :=
  let userDataPath := GetUserPath username
  let userTokenPath := userDataPath ++ "/tokens"
  if containsKey s userDataPath && containsKey s userTokenPath then
    match getVal s userTokenPath, getVal s userDataPath with
    | some tokenVal, some userVal =>
      match unmarshalToken tokenVal with
      | .error e => .error e
      | .ok token =>
        match parseInt64 token.ExpiryUnixTime with
        | .error e => .error e
        | .ok expiry =>
          if expiry < now then .error .notFound
          else unmarshalScrubbed userVal
    | _, _ => .error .decode
  else .error .notFound

/-- UserModel.UpdateNoLock: json.Marshal the full record and write it
unconditionally to the account key. -/
def updateNoLock (user : User) (s : Store) : Store :=
  putVal s (GetUserPath user.Username) (.doc (jsonEncodeUser user))

/-- UserModel.Delete: a prefix read of the account subtree; NotFound when
it returns no keys, else a prefix delete of the subtree. -/
def delete (username : String) (s : Store) : Except DataErr Store :=
  let userDataPath := GetUserPath username
  if (rangeGet s userDataPath).isEmpty then .error .notFound
  else .ok (delRange s userDataPath)

/-- The accumulation loop of UserModel.GetAll over the range result, in
store order: strip the hardcoded root, split on "/", skip child nodes
(more than one segment), apply the username substring filter to the top
segment, json.Unmarshal the value (an error aborts the listing), apply
the admin filter, and collect the scrubbed users in order. -/
def collectUsers (username : String) (adminF : Option Bool) :
    List (String × StoreVal) → Except DataErr (List ScrubbedUser)
  | [] => .ok []
  | kv :: rest =>
    let stripped := trimPre kv.1 usersRoot
    let levels := splitChar '/' stripped.data
    let topLevel := String.mk (levels.headD [])
    if levels.length > 1 then collectUsers username adminF rest
    else if username != "" && !(strContains topLevel username) then
      collectUsers username adminF rest
    else
      match unmarshalUser kv.2 with
      | .error e => .error e
      | .ok user =>
        if (match adminF with | some a => user.Admin != a | none => false) then
          collectUsers username adminF rest
        else
          match collectUsers username adminF rest with
          | .error e => .error e
          | .ok us => .ok (scrub user :: us)

/-- UserModel.GetAll: range-read the account root, accumulate the
matching scrubbed users, sort by username in the requested direction,
return an empty page when the offset exceeds the total match count, else
slice out the requested page; metadata always comes from the total match
count, page and page size. -/
def getAll (username : String) (adminF : Option Bool) (f : Filters)
    (s : Store) : Except DataErr (List ScrubbedUser × Metadata) :=
  match collectUsers username adminF (rangeGet s usersRoot) with
  | .error e => .error e
  | .ok users =>
    let totalRecords := users.length
    let sorted :=
      if sortColumn f == "-username" then
        sortUsers (fun a b => strLtB b.Username a.Username) users
      else
        sortUsers (fun a b => strLtB a.Username b.Username) users
    if (totalRecords : Int) < filtersOffset f then
      .ok ([], calculateMetadata totalRecords f.Page f.PageSize)
    else
      let maxItem := min (filtersOffset f + filtersLimit f) (totalRecords : Int)
      let page := (sorted.drop (filtersOffset f).toNat).take
        (maxItem - filtersOffset f).toNat
      .ok (page, calculateMetadata totalRecords f.Page f.PageSize)

end Sqlpipe

namespace Sqlpipe

/-! ## Claim theorems -/

/-- C1 (refuted, code bug): the claim says the token key checked by
GetUserCheckToken is accounts/{u}/tokens/{hash(rawToken)}, so the supplied
raw token determines which key the transaction checks. In the code the
inputToken parameter is never used: the transaction checks the fixed key
userDataPath ++ "/tokens". In a store holding the account "alice" and a
valid token stored under its hashed-token key (expiry 200, now = 100),
validation returns NotFound for every supplied raw token, including the
one whose hash names the stored token key. -/
theorem c1_getUserCheckToken_ignores_raw_token :
    ∀ rawToken : String,
      getUserCheckToken "alice" rawToken 100
        [(GetUserPath "alice", .doc [("username", .jstr "alice"), ("admin", .jbool true)]),
         (GetUserTokenPath "alice" (sha256Hex "rawtok"), .text "200")] =
        .error .notFound :=
  fun _ => rfl

/-- C4 (refuted, code bug): bootstrap creation writes the empty string as
the account key's value, while GetAll json-decodes every top-level value;
so after creating "alice", GetAll with no filters and pageSize 10 ≥ 1
returns a decode error instead of the one created account. -/
theorem c4_getAll_decode_error_on_created_account :
    insert { Username := "alice", PlaintextPassword := "pw", BcryptedPassword := "B",
             AuthToken := "", Admin := true } [] =
      .ok [(GetUserPath "alice", .text ""),
           (GetUserAdminPath "alice", .text "true"),
           (GetUserHashedPasswordPath "alice", .text (sha256Hex "B"))] ∧
    getAll "" none { Page := 1, PageSize := 10, SortKey := "username" }
      [(GetUserPath "alice", .text ""),
       (GetUserAdminPath "alice", .text "true"),
       (GetUserHashedPasswordPath "alice", .text (sha256Hex "B"))] =
      .error .decode :=
  ⟨rfl, rfl⟩

/-- C5 (refuted, code bug): after bootstrap creation of alice (admin
true), Get("alice") json-decodes the account key's value, which Insert
wrote as the empty string (the admin flag lives only in the child key
that Get never reads), so it returns a decode error rather than the
scrubbed account. -/
theorem c5_get_after_insert_decode_error :
    insert { Username := "alice", PlaintextPassword := "pw", BcryptedPassword := "B",
             AuthToken := "", Admin := true } [] =
      .ok [(GetUserPath "alice", .text ""),
           (GetUserAdminPath "alice", .text "true"),
           (GetUserHashedPasswordPath "alice", .text (sha256Hex "B"))] ∧
    get "alice"
      [(GetUserPath "alice", .text ""),
       (GetUserAdminPath "alice", .text "true"),
       (GetUserHashedPasswordPath "alice", .text (sha256Hex "B"))] =
      .error .decode :=
  ⟨rfl, rfl⟩

/-- C6 (refuted, code bug): GetUserWithPassword's loop compares each full
returned key with the bare strings "admin" and "hashed_password"; since
every returned key carries the account prefix, neither case ever matches,
so on a subtree storing admin = true and a password hash the function
returns Admin = false and an empty BcryptedPassword instead of
reassembling them. -/
theorem c6_getUserWithPassword_never_reassembles :
    getVal [(GetUserPath "alice", .text ""),
            (GetUserAdminPath "alice", .text "true"),
            (GetUserHashedPasswordPath "alice", .text "HH")]
        (GetUserAdminPath "alice") = some (.text "true") ∧
    getVal [(GetUserPath "alice", .text ""),
            (GetUserAdminPath "alice", .text "true"),
            (GetUserHashedPasswordPath "alice", .text "HH")]
        (GetUserHashedPasswordPath "alice") = some (.text "HH") ∧
    getUserWithPassword "alice"
        [(GetUserPath "alice", .text ""),
         (GetUserAdminPath "alice", .text "true"),
         (GetUserHashedPasswordPath "alice", .text "HH")] =
      .ok { Username := "alice", PlaintextPassword := "", BcryptedPassword := "",
            AuthToken := "", Admin := false } :=
  ⟨rfl, rfl, rfl⟩

/-- C7 (refuted, code bug): the unknown-error panic of InsertCheckToken is
reachable. With the caller's token stored with expiry text "100", both
clock reads at 100, and the target account absent, the transaction fails
(the value compare demands expiry strictly greater than now) while the
diagnose branch finds the token present, its expiry not in the past
(100 < 100 is false), and the account absent — reaching the panic. -/
theorem c7_insertCheckToken_panic_reachable :
    insertCheckToken
      { Username := "bob", PlaintextPassword := "", BcryptedPassword := "B",
        AuthToken := "", Admin := false }
      { Username := "alice", PlaintextPassword := "", BcryptedPassword := "",
        AuthToken := "tok", Admin := true }
      100 100
      [(GetUserTokenPath "alice" (sha256Hex "tok"), .text "100")] =
      .fatal "inserting user failed with an unknown error" :=
  rfl

/-- C10 (confirmed): the JSON payload of a User — as written by
UpdateNoLock — is independent of the plaintext password and the raw auth
token (both tagged "-"), and carries the bcrypt hash under the JSON field
name "_". -/
theorem c10_user_payload_scrubs_secrets_keeps_hash (u : User) (p tok : String) :
    jsonEncodeUser { u with PlaintextPassword := p, AuthToken := tok } = jsonEncodeUser u ∧
    jfield (jsonEncodeUser u) "_" = some (.jbytes u.BcryptedPassword) ∧
    (∀ s : Store, updateNoLock { u with PlaintextPassword := p, AuthToken := tok } s =
      updateNoLock u s) :=
  ⟨rfl, rfl, fun _ => rfl⟩

/-- C2 counterexample: the claim classifies a stored expiry that is "not
strictly in the future" as InvalidCredentials before any uniqueness
check. With the token stored with expiry text "100", both clock reads at
100 (expiry equal to now, hence not strictly in the future) and the
target account existing, the transaction fails and the code returns
DuplicateUsername, not InvalidCredentials. -/
theorem c2_boundary_expiry_returns_duplicate :
    insertCheckToken
      { Username := "bob", PlaintextPassword := "", BcryptedPassword := "B",
        AuthToken := "", Admin := false }
      { Username := "alice", PlaintextPassword := "", BcryptedPassword := "",
        AuthToken := "tok", Admin := true }
      100 100
      [(GetUserTokenPath "alice" (sha256Hex "tok"), .text "100"),
       (GetUserPath "bob", .text "")] =
      .err .duplicateUsername ∧
    ¬ (insertCheckToken
      { Username := "bob", PlaintextPassword := "", BcryptedPassword := "B",
        AuthToken := "", Admin := false }
      { Username := "alice", PlaintextPassword := "", BcryptedPassword := "",
        AuthToken := "tok", Admin := true }
      100 100
      [(GetUserTokenPath "alice" (sha256Hex "tok"), .text "100"),
       (GetUserPath "bob", .text "")] =
      .err .invalidCredentials) :=
  ⟨rfl, fun h => by exact absurd h (by decide)⟩

/-- C3 counterexample: the claim demands NotFound for every now ≥ t. For a
token record with expiry t = 100 stored at the key the validator reads,
validation at now = 100 succeeds and returns the scrubbed account. -/
theorem c3_boundary_now_equal_expiry_validates :
    getUserCheckToken "alice" "x" 100
      [(GetUserPath "alice", .doc [("username", .jstr "alice"), ("admin", .jbool true)]),
       (GetUserPath "alice" ++ "/tokens", .doc [("expiry", .jstr "100")])] =
      .ok { Username := "alice", Admin := true } ∧
    ¬ (getUserCheckToken "alice" "x" 100
      [(GetUserPath "alice", .doc [("username", .jstr "alice"), ("admin", .jbool true)]),
       (GetUserPath "alice" ++ "/tokens", .doc [("expiry", .jstr "100")])] =
      .error .notFound) :=
  ⟨rfl, fun h => Except.noConfusion h⟩

/-- C8 counterexample: deleting the non-existent username "alice" in a
store that only holds the account key of "aliceb" succeeds (and removes
that key) instead of returning NotFound, because the existence check is a
string-prefix scan and aliceb's account key extends alice's. -/
theorem c8_nonexistent_username_delete_succeeds :
    getVal [(GetUserPath "aliceb", StoreVal.text "")] (GetUserPath "alice") = none ∧
    delete "alice" [(GetUserPath "aliceb", StoreVal.text "")] = .ok [] ∧
    ¬ (delete "alice" [(GetUserPath "aliceb", StoreVal.text "")] = .error .notFound) :=
  ⟨rfl, rfl, fun h => Except.noConfusion h⟩

/-- C8 (amended): Delete returns NotFound exactly when no stored key
starts with the username's account-key string — hence a second delete of
the same username right after a successful one returns NotFound — but a
non-existent username whose account key is a string prefix of other
stored keys is not covered: there the delete succeeds. -/
theorem c8_delete_notFound_and_second_delete (username : String) (s : Store) :
    ((rangeGet s (GetUserPath username)).isEmpty = true →
      delete username s = .error .notFound) ∧
    (∀ s2, delete username s = .ok s2 → delete username s2 = .error .notFound) := by
  constructor
  · intro h
    simp only [delete, h, if_true]
  · intro s2 h
    by_cases hemp : (rangeGet s (GetUserPath username)).isEmpty = true
    · simp only [delete, hemp, if_true] at h
      exact Except.noConfusion h
    · simp only [delete, hemp, if_false] at h
      have hs2 : s2 = delRange s (GetUserPath username) := by
        cases h
        rfl
      subst hs2
      have hnil : rangeGet (delRange s (GetUserPath username)) (GetUserPath username) = [] := by
        simp [rangeGet, delRange, List.filter_filter]
      simp only [delete, hnil, List.isEmpty_nil, if_true]

/-- C8 witness: the amended theorem applied to username "alice" and a
store holding alice's account key: the successful delete empties the
store and the second delete returns NotFound. -/
theorem c8_delete_witness :
    delete "alice" [(GetUserPath "alice", StoreVal.text "")] = .ok [] ∧
    delete "alice" ([] : Store) = .error .notFound :=
  ⟨rfl, (c8_delete_notFound_and_second_delete "alice"
    [(GetUserPath "alice", StoreVal.text "")]).2 [] rfl⟩

/-- C9 (confirmed): for any filter combination, when the pagination offset
exceeds the number of matching accounts (the accumulated match list us),
GetAll returns an empty page, metadata computed from the true total match
count, page and page size, and no error. -/
theorem c9_getAll_offset_exceeding_matches (username : String) (adminF : Option Bool)
    (f : Filters) (s : Store) (us : List ScrubbedUser)
    (hc : collectUsers username adminF (rangeGet s usersRoot) = .ok us)
    (hoff : (us.length : Int) < filtersOffset f) :
    getAll username adminF f s = .ok ([], calculateMetadata us.length f.Page f.PageSize) := by
  simp only [getAll, hc, hoff, if_true, if_pos]

/-- C9 witness: one matching account, page 5 of size 10 (offset 40 > 1)
returns the empty page with metadata over the true count 1. -/
theorem c9_getAll_offset_witness :
    getAll "" none { Page := 5, PageSize := 10, SortKey := "username" }
      [(GetUserPath "alice", .doc [("username", .jstr "alice"), ("admin", .jbool true)])] =
      .ok ([], { totalRecords := 1, page := 5, pageSize := 10 }) :=
  c9_getAll_offset_exceeding_matches "" none
    { Page := 5, PageSize := 10, SortKey := "username" }
    [(GetUserPath "alice", .doc [("username", .jstr "alice"), ("admin", .jbool true)])]
    [{ Username := "alice", Admin := true }] rfl (by decide)

/-- An account key never equals its own tokens child key. -/
theorem userPath_ne_tokensKey (u : String) :
    (GetUserPath u == GetUserPath u ++ "/tokens") = false := by
  rw [beq_eq_false_iff_ne]
  intro h
  have h2 := congrArg String.length h
  rw [String.length_append] at h2
  have h3 : ("/tokens" : String).length = 7 := rfl
  omega

/-- C3 (amended): for a token record stored at the key the validator
actually reads (the account's literal tokens child key) whose text
expiry parses to t, and an account record decoding to the scrubbed user,
validation succeeds for every now ≤ t and fails with NotFound for every
now > t: a token whose expiry equals the current time still validates. -/
theorem c3_expiry_monotonicity (u un r e : String) (ad : Bool) (t now : Int)
    (hp : parseInt64 e = .ok t) :
    (now ≤ t →
      getUserCheckToken u r now
        [(GetUserPath u, .doc [("username", .jstr un), ("admin", .jbool ad)]),
         (GetUserPath u ++ "/tokens", .doc [("expiry", .jstr e)])] =
        .ok { Username := un, Admin := ad }) ∧
    (t < now →
      getUserCheckToken u r now
        [(GetUserPath u, .doc [("username", .jstr un), ("admin", .jbool ad)]),
         (GetUserPath u ++ "/tokens", .doc [("expiry", .jstr e)])] =
        .error .notFound) := by
  have hg1 : getVal
      [(GetUserPath u, StoreVal.doc [("username", .jstr un), ("admin", .jbool ad)]),
       (GetUserPath u ++ "/tokens", StoreVal.doc [("expiry", .jstr e)])]
      (GetUserPath u) = some (.doc [("username", .jstr un), ("admin", .jbool ad)]) := by
    simp [getVal, List.find?]
  have hg2 : getVal
      [(GetUserPath u, StoreVal.doc [("username", .jstr un), ("admin", .jbool ad)]),
       (GetUserPath u ++ "/tokens", StoreVal.doc [("expiry", .jstr e)])]
      (GetUserPath u ++ "/tokens") = some (.doc [("expiry", .jstr e)]) := by
    simp [getVal, List.find?, userPath_ne_tokensKey u]
  constructor
  · intro hle
    simp [getUserCheckToken, containsKey, hg1, hg2, unmarshalToken, jfield,
      unmarshalScrubbed, jstrField, jboolField, hp, not_lt.mpr hle]
  · intro hlt
    simp [getUserCheckToken, containsKey, hg1, hg2, unmarshalToken, jfield, hp, hlt]

/-- C3 witness: a token with expiry text "100" (t = 100) validates at
now = 100 via the amended theorem. -/
theorem c3_expiry_witness :
    parseInt64 "100" = .ok 100 ∧
    getUserCheckToken "alice" "x" 100
      [(GetUserPath "alice", .doc [("username", .jstr "alice"), ("admin", .jbool true)]),
       (GetUserPath "alice" ++ "/tokens", .doc [("expiry", .jstr "100")])] =
      .ok { Username := "alice", Admin := true } :=
  ⟨rfl, (c3_expiry_monotonicity "alice" "alice" "x" "100" true 100 100 rfl).1 le_rfl⟩

/-- C2 (amended): whenever the authenticated-creation transaction fails
its condition set, the diagnose branch classifies the cause at its own
clock read nowChk: InvalidCredentials if the caller's hashed-token key is
absent; else, with the stored expiry text parsing to e,
InvalidCredentials if e is strictly in the past (e < nowChk); else
DuplicateUsername if the target account key exists; in the one remaining
case (token present, e not in the past, account absent — reachable when
the stored expiry equals the transaction clock) the operation aborts with
the fatal unknown-error panic rather than a named error. -/
theorem c2_insertCheckToken_failure_classification
    (newUser callingUser : User) (nowTxn nowChk : Int) (s : Store)
    (hfail : ¬ (containsKey s
        (GetUserTokenPath callingUser.Username (sha256Hex callingUser.AuthToken)) = true ∧
      valueGtText s (GetUserTokenPath callingUser.Username (sha256Hex callingUser.AuthToken))
        (toString nowTxn) = true ∧
      containsKey s (GetUserPath newUser.Username) = false)) :
    (getVal s (GetUserTokenPath callingUser.Username (sha256Hex callingUser.AuthToken)) = none →
      insertCheckToken newUser callingUser nowTxn nowChk s = .err .invalidCredentials) ∧
    (∀ txt e,
      getVal s (GetUserTokenPath callingUser.Username (sha256Hex callingUser.AuthToken)) =
        some (.text txt) →
      parseInt64 txt = .ok e →
      ((e < nowChk →
        insertCheckToken newUser callingUser nowTxn nowChk s = .err .invalidCredentials) ∧
       (¬ e < nowChk → containsKey s (GetUserPath newUser.Username) = true →
        insertCheckToken newUser callingUser nowTxn nowChk s = .err .duplicateUsername) ∧
       (¬ e < nowChk → containsKey s (GetUserPath newUser.Username) = false →
        insertCheckToken newUser callingUser nowTxn nowChk s =
          .fatal "inserting user failed with an unknown error"))) := by
  have hcond : (containsKey s
      (GetUserTokenPath callingUser.Username (sha256Hex callingUser.AuthToken)) &&
    valueGtText s (GetUserTokenPath callingUser.Username (sha256Hex callingUser.AuthToken))
      (toString nowTxn) &&
    !containsKey s (GetUserPath newUser.Username)) = false := by
    cases hA : containsKey s
        (GetUserTokenPath callingUser.Username (sha256Hex callingUser.AuthToken)) <;>
      cases hB : valueGtText s
          (GetUserTokenPath callingUser.Username (sha256Hex callingUser.AuthToken))
          (toString nowTxn) <;>
      cases hC : containsKey s (GetUserPath newUser.Username) <;>
      simp_all
  refine ⟨fun hnone => ?_, fun txt e hsome hpe => ⟨fun hlt => ?_, fun hge hdup => ?_, fun hge habs => ?_⟩⟩
  · simp [insertCheckToken, hcond, hnone]
  · simp [insertCheckToken, hcond, hsome, storeValBytes, hpe, hlt]
  · simp [insertCheckToken, hcond, hsome, storeValBytes, hpe, hge, hdup]
  · simp [insertCheckToken, hcond, hsome, storeValBytes, hpe, hge, habs]
    intro hA
    cases hB : valueGtText s
        (GetUserTokenPath callingUser.Username (sha256Hex callingUser.AuthToken))
        (toString nowTxn)
    · rfl
    · exact absurd ⟨hA, hB, habs⟩ hfail

/-- C2 witness: token present with expiry 100 in the past of nowChk = 200
(transaction clock 200 as well), so the failed transaction is classified
as InvalidCredentials. -/
theorem c2_classification_witness :
    insertCheckToken
      { Username := "bob", PlaintextPassword := "", BcryptedPassword := "B",
        AuthToken := "", Admin := false }
      { Username := "alice", PlaintextPassword := "", BcryptedPassword := "",
        AuthToken := "tok", Admin := true }
      200 200
      [(GetUserTokenPath "alice" (sha256Hex "tok"), .text "100")] =
      .err .invalidCredentials :=
  ((c2_insertCheckToken_failure_classification
      { Username := "bob", PlaintextPassword := "", BcryptedPassword := "B",
        AuthToken := "", Admin := false }
      { Username := "alice", PlaintextPassword := "", BcryptedPassword := "",
        AuthToken := "tok", Admin := true }
      200 200
      [(GetUserTokenPath "alice" (sha256Hex "tok"), .text "100")]
      (by decide)).2 "100" 100 rfl rfl).1 (by decide)

end Sqlpipe
